import Mathlib

/- Verification development for the Delve taxonomy pipeline
   (TypeScript sources: utils.ts, prompts.ts, nodes.ts, client.ts).

   The JavaScript regular expressions used by the parsers are embedded over
   lists of characters.  Each regex in utils.ts is of one of two shapes:

   * openTag([\s\S]*?)closeTag  — a lazy capture between two literal tags.
     The leftmost match starts at the first occurrence of openTag, and the
     lazy group ends at the first occurrence of closeTag after it, so the
     capture is exactly the text between those two occurrences.

   * openTag\s*(\d+)\s*closeTag — whitespace, digits and the character <
     are pairwise disjoint classes, so backtracking never changes the
     outcome and maximal-munch scanning is an exact model.  The regex
     engine tries every start position left to right; scanning suffixes
     models that. -/

namespace Delve

/-- Characters of the JavaScript regex class \s (also the set stripped by
String.prototype.trim), by code point. -/
def jsSpace (c : Char) : Bool :=
  c.toNat = 32 || c.toNat = 9 || c.toNat = 10 || c.toNat = 13 ||
  c.toNat = 11 || c.toNat = 12 || c.toNat = 160 || c.toNat = 5760 ||
  (8192 ≤ c.toNat && c.toNat ≤ 8202) || c.toNat = 8232 || c.toNat = 8233 ||
  c.toNat = 8239 || c.toNat = 8287 || c.toNat = 12288 || c.toNat = 65279

/-- Characters of the JavaScript regex class \d (the decimal digits). -/
def jsDigit (c : Char) : Bool :=
  48 ≤ c.toNat && c.toNat ≤ 57

/-- startsWith pat s : pat is a prefix of s. -/
def startsWith : List Char → List Char → Bool
  | [], _ => true
  | _ :: _, [] => false
  | p :: ps, c :: cs => p == c && startsWith ps cs

/-- Position of the first occurrence of pat in s, if any. -/
def firstIdx (pat : List Char) : List Char → Option Nat
  | [] => if startsWith pat [] then some 0 else none
  | c :: rest =>
    if startsWith pat (c :: rest) then some 0
    else (firstIdx pat rest).map (· + 1)

/-- Whether pat occurs in s as a contiguous segment. -/
def occursIn (pat s : List Char) : Bool :=
  (firstIdx pat s).isSome

/-- sandwiched t s : t occurs in s as a contiguous segment (the
specification-side notion matched by occursIn). -/
def sandwiched (t s : List Char) : Prop :=
  ∃ l r, s = l ++ t ++ r

/-- Capture of the JS regex openTag([\s\S]*?)closeTag on s: the text between
the first occurrence of openTag and the first occurrence of closeTag after
it; none when the regex does not match. -/
def extractBetween (openTag closeTag s : List Char) : Option (List Char) :=
  match firstIdx openTag s with
  | none => none
  | some i =>
    match firstIdx closeTag (s.drop (i + openTag.length)) with
    | none => none
    | some j => some ((s.drop (i + openTag.length)).take j)

/-- One step of a global regex loop openTag([\s\S]*?)closeTag with the /g
flag: the first capture together with the text after the matched closing
tag, where the next exec call resumes. -/
def splitFirstBetween (openTag closeTag s : List Char) :
    Option (List Char × List Char) :=
  match firstIdx openTag s with
  | none => none
  | some i =>
    match firstIdx closeTag (s.drop (i + openTag.length)) with
    | none => none
    | some j =>
      some ((s.drop (i + openTag.length)).take j,
            (s.drop (i + openTag.length)).drop (j + closeTag.length))

/-- Anchored match of the JS regex openTag\s*(\d+)\s*closeTag at the start
of s, returning the captured digit run. -/
def matchTaggedDigits (openTag closeTag s : List Char) : Option (List Char) :=
  if startsWith openTag s then
    let r1 := (s.drop openTag.length).dropWhile jsSpace
    let digits := r1.takeWhile jsDigit
    if digits.isEmpty then none
    else if startsWith closeTag ((r1.dropWhile jsDigit).dropWhile jsSpace) then
      some digits
    else none
  else none

/-- Left-to-right scan of an anchored matcher over every start position of
s, as a JS regex engine does. -/
def scanFor {β : Type} (m : List Char → Option β) : List Char → Option β
  | [] => m []
  | c :: rest =>
    match m (c :: rest) with
    | some b => some b
    | none => scanFor m rest

/-- String.prototype.trim: strip leading and trailing whitespace. -/
def jsTrim (s : List Char) : List Char :=
  ((s.dropWhile jsSpace).reverse.dropWhile jsSpace).reverse

/-- A taxonomy category (types.ts). -/
structure TaxonomyCategory where
  id : String
  name : String
  description : String
deriving DecidableEq, Repr

/-- A document (types.ts).  Optional fields are absent until the
corresponding stage fills them in. -/
structure Doc where
  id : String
  content : String
  summary : Option String := none
  explanation : Option String := none
  category : Option String := none
deriving DecidableEq, Repr

/-- The exec loop of the global regex /<cluster>([\s\S]*?)<\/cluster>/g:
one capture per match, resuming after each matched closing tag.  The fuel
argument only bounds the recursion: every successful step strips at least
the opening tag from the text, so s.length + 1 iterations always
suffice. -/
def extractClustersLoop : Nat → List Char → List (List Char)
  | 0, _ => []
  | fuel + 1, s =>
    match splitFirstBetween "<cluster>".data "</cluster>".data s with
    | none => []
    | some (cap, rem) => cap :: extractClustersLoop fuel rem

/-- The cluster blocks found in s by the global cluster regex. -/
def extractClusters (s : List Char) : List (List Char) :=
  extractClustersLoop (s.length + 1) s

/-- Capture of /<id>\s*(\d+)\s*<\/id>/ on a cluster block. -/
def idCapture (block : List Char) : Option (List Char) :=
  scanFor (matchTaggedDigits "<id>".data "</id>".data) block

/-- Capture of /<name>\s*([\s\S]*?)\s*<\/name>/ on a cluster block.  The
regex-side \s* stripping is subsumed by the jsTrim applied at use sites,
mirroring nameMatch[1].trim() in the source. -/
def nameCapture (block : List Char) : Option (List Char) :=
  extractBetween "<name>".data "</name>".data block

/-- Capture of /<description>\s*([\s\S]*?)\s*<\/description>/ on a cluster
block, as for nameCapture. -/
def descCapture (block : List Char) : Option (List Char) :=
  extractBetween "<description>".data "</description>".data block

/-- The body of the while loop of parseTaxonomy: a cluster block becomes a
category when both the id and the name regexes match; a missing description
defaults to the empty string. -/
def clusterToCategory (block : List Char) : Option TaxonomyCategory :=
  match idCapture block, nameCapture block with
  | some d, some nm =>
    some { id := String.mk (jsTrim d), name := String.mk (jsTrim nm),
           description :=
             match descCapture block with
             | some ds => String.mk (jsTrim ds)
             | none => "" }
  | _, _ => none

/-- parseTaxonomy from utils.ts.  The content scanned for clusters is the
first <cluster_table> capture when that regex matches, the whole input
otherwise. -/
def parseTaxonomy (xmlString : String) : List TaxonomyCategory :=
  let content :=
    match extractBetween "<cluster_table>".data "</cluster_table>".data
        xmlString.data with
    | some c => c
    | none => xmlString.data
  (extractClusters content).filterMap clusterToCategory

/-- Result type of parseSummary from utils.ts. -/
structure SummaryResult where
  summary : String
  explanation : String
deriving DecidableEq, Repr

/-- parseSummary from utils.ts: each field falls back to the empty string
when its regex does not match. -/
def parseSummary (xmlString : String) : SummaryResult :=
  { summary :=
      match extractBetween "<summary>".data "</summary>".data xmlString.data with
      | some c => String.mk (jsTrim c)
      | none => ""
    explanation :=
      match extractBetween "<explanation>".data "</explanation>".data
          xmlString.data with
      | some c => String.mk (jsTrim c)
      | none => "" }

/-- parseCategoryId from utils.ts. -/
def parseCategoryId (output : String) : Option String :=
  (scanFor (matchTaggedDigits "<category_id>".data "</category_id>".data)
      output.data).map fun d => String.mk d

/-- getCategoryNameById from utils.ts throws when the id is not found; the
fallible lookup is modelled as an Option whose none case corresponds to the
thrown error (caught by the labeler). -/
def getCategoryNameById? (categoryId : String)
    (taxonomy : List TaxonomyCategory) : Option String :=
  (taxonomy.find? fun c => c.id == categoryId).map (·.name)

/-- formatTaxonomyAsXml from utils.ts. -/
def formatTaxonomyAsXml (taxonomy : List TaxonomyCategory) : String :=
  "<cluster_table>\n" ++
    (taxonomy.foldl (fun xml c =>
      xml ++ "  <cluster>\n    <id>" ++ c.id ++ "</id>\n    <name>" ++
        c.name ++ "</name>\n    <description>" ++ c.description ++
        "</description>\n  </cluster>\n") "") ++
  "</cluster_table>"

/-- formatDocsAsXml from utils.ts; doc.summary || doc.content means an
absent or empty summary falls back to the raw content. -/
def formatDocsAsXml (docs : List Doc) : String :=
  docs.foldl (fun xml d =>
    xml ++ "<conversation>\n  <id>" ++ d.id ++ "</id>\n  <text>" ++
      (match d.summary with
       | some s => if s = "" then d.content else s
       | none => d.content) ++ "</text>\n</conversation>\n") ""

/-- One iteration of the Fisher-Yates loop of sampleDocuments:
[shuffled[i], shuffled[j]] = [shuffled[j], shuffled[i]].  Out-of-range
indices never arise in the pipeline; they leave the list unchanged. -/
def swapIdx {α : Type} (l : List α) (i j : Nat) : List α :=
  match l[i]?, l[j]? with
  | some x, some y => (l.set i y).set j x
  | _, _ => l

/-- The Fisher-Yates loop of sampleDocuments: for i from l.length - 1 down
to 1, swap position i with position rand i, where rand i models
Math.floor(Math.random() * (i + 1)). -/
def fisherYates {α : Type} (rand : Nat → Nat) : List α → Nat → List α
  | l, 0 => l
  | l, i + 1 => fisherYates rand (swapIdx l (i + 1) (rand (i + 1))) i

/-- sampleDocuments from utils.ts.  sampleSize is an Int because the
JavaScript number may be negative; rand supplies the random draws. -/
def sampleDocuments (docs : List Doc) (sampleSize : Int)
    (rand : Nat → Nat) : List Doc :=
  if sampleSize ≤ 0 ∨ (docs.length : Int) ≤ sampleSize then docs
  else (fisherYates rand docs (docs.length - 1)).take sampleSize.toNat

/-- The loop of generateMinibatches:
batches.push(indices.slice(i, i + batchSize)) for i = 0, batchSize, ...
The fuel argument only bounds the recursion: docCount + 1 iterations always
suffice when batchSize ≥ 1 (the JavaScript loop does not terminate when
batchSize = 0). -/
def minibatchLoop (indices : List Nat) (batchSize : Nat) :
    Nat → Nat → List (List Nat)
  | _, 0 => []
  | i, fuel + 1 =>
    if i < indices.length then
      ((indices.drop i).take batchSize) ::
        minibatchLoop indices batchSize (i + batchSize) fuel
    else []

/-- generateMinibatches from utils.ts. -/
def generateMinibatches (docCount batchSize : Nat) : List (List Nat) :=
  minibatchLoop (List.range docCount) batchSize 0 (docCount + 1)

/-- The graph state (types.ts / client.ts channels).  The clusters, status
and warnings channels are append-only (their LangGraph reducers concatenate
updates); the other channels are overwritten by node returns. -/
structure GraphState where
  allDocuments : List Doc
  documents : List Doc
  minibatches : List (List Nat)
  clusters : List (List TaxonomyCategory)
  useCase : String
  status : List String
  llmLabeledCount : Nat
  classifierLabeledCount : Nat
  skippedDocumentCount : Nat
  warnings : List String
deriving DecidableEq, Repr

/-- Ghost instrumentation of one run: the node names executed in order and
the number of chain invocations issued per template.  Not part of the
source state; it records what the source does. -/
structure RunLog where
  trace : List String
  genCalls : Nat
  sumCalls : Nat
  labelCalls : Nat
deriving DecidableEq, Repr

/-- The configuration fields the core nodes read.  The Delve constructor
merges caller configuration over these defaults, so nodes always see
concrete values (their ?? fallbacks repeat the same defaults). -/
structure DelveConfig where
  sampleSize : Int := 100
  batchSize : Nat := 200
  maxNumClusters : Nat := 5
  useCase : Option String := none
deriving Repr

/-- The three text-generation collaborators, as response functions of the
fields the source feeds into each prompt template: the summary chain
receives the document content; the taxonomy chain receives the cluster cap,
the feedback text and the batch XML; the labeler chain receives the
document content and the taxonomy XML. -/
structure Oracles where
  summaryLLM : String → String
  taxonomyLLM : Nat → String → String → String
  labelLLM : String → String → String

/-- JavaScript a || b for an optional string (the empty string is falsy). -/
def jsOr (o : Option String) (d : String) : String :=
  match o with
  | some u => if u = "" then d else u
  | none => d

/-- loadData from nodes.ts. -/
def loadData (cfg : DelveConfig) (rand : Nat → Nat) (s : GraphState) :
    GraphState :=
  let documents := sampleDocuments s.allDocuments cfg.sampleSize rand
  { s with
    documents := documents,
    useCase := jsOr cfg.useCase
      "Generate taxonomy for categorizing document content",
    status := s.status ++
      ["Loaded " ++ toString s.allDocuments.length ++ " documents, sampled " ++
        toString documents.length] }

/-- The per-document body of the summarize loop in nodes.ts. -/
def summarizeDocs (oracles : Oracles) (docs : List Doc) : List Doc :=
  docs.map fun d =>
    let parsed := parseSummary (oracles.summaryLLM d.content)
    { d with summary := some parsed.summary,
             explanation := some parsed.explanation }

/-- summarize from nodes.ts. -/
def summarize (oracles : Oracles) (s : GraphState) : GraphState :=
  let summarizedDocs := summarizeDocs oracles s.documents
  { s with
    documents := summarizedDocs,
    status := s.status ++
      ["Summarized " ++ toString summarizedDocs.length ++ " documents"] }

/-- getMinibatches from nodes.ts. -/
def getMinibatches (cfg : DelveConfig) (s : GraphState) : GraphState :=
  let minibatches := generateMinibatches s.documents.length cfg.batchSize
  { s with
    minibatches := minibatches,
    status := s.status ++
      ["Generated " ++ toString minibatches.length ++ " minibatches"] }

/-- batch.map((i) => state.documents[i]); indices are in range whenever the
batch came from generateMinibatches over the same document list. -/
def batchDocsOf (s : GraphState) (batch : List Nat) : List Doc :=
  batch.filterMap fun i => s.documents[i]?

/-- generateTaxonomy from nodes.ts (the discovery node).  On an empty
minibatch list the source dereferences undefined and the run rejects; the
headD makes the model total, and theorems about the discovery path assume a
non-empty corpus so the case never carries weight. -/
def generateTaxonomy (cfg : DelveConfig) (oracles : Oracles)
    (s : GraphState) : GraphState :=
  let firstBatch := s.minibatches.headD []
  let dataXml := formatDocsAsXml (batchDocsOf s firstBatch)
  let result := oracles.taxonomyLLM cfg.maxNumClusters
    "No previous feedback provided." dataXml
  let taxonomy := parseTaxonomy result
  { s with
    clusters := s.clusters ++ [taxonomy],
    status := s.status ++
      ["Generated initial taxonomy with " ++ toString taxonomy.length ++
        " categories"] }

/-- updateTaxonomy from nodes.ts (the revision node).  When every batch is
already processed it changes nothing but the status log and issues no
generation call. -/
def updateTaxonomy (cfg : DelveConfig) (oracles : Oracles)
    (s : GraphState) : GraphState :=
  let currentClusters := s.clusters.getLastD []
  let currentBatchIndex := s.clusters.length
  if s.minibatches.length ≤ currentBatchIndex then
    { s with status := s.status ++ ["No more batches to process"] }
  else
    let feedback := "Please consider the existing taxonomy when refining:\n"
      ++ formatTaxonomyAsXml currentClusters
    let batchIndices := s.minibatches.getD currentBatchIndex []
    let dataXml := formatDocsAsXml (batchDocsOf s batchIndices)
    let result := oracles.taxonomyLLM cfg.maxNumClusters feedback dataXml
    let taxonomy := parseTaxonomy result
    { s with
      clusters := s.clusters ++ [taxonomy],
      status := s.status ++
        ["Updated taxonomy (batch " ++ toString (currentBatchIndex + 1) ++
          "/" ++ toString s.minibatches.length ++ ")"] }

/-- reviewTaxonomy from nodes.ts: a pass-through finalize step. -/
def reviewTaxonomy (s : GraphState) : GraphState :=
  let finalTaxonomy := s.clusters.getLastD []
  { s with
    status := s.status ++
      ["Finalized taxonomy with " ++ toString finalTaxonomy.length ++
        " categories"] }

/-- The per-document body of the labeling loop in nodes.ts: the labeled
document, the warnings pushed for it, and its contribution to
skippedCount. -/
def labelOneDoc (taxonomy : List TaxonomyCategory) (oracles : Oracles)
    (taxonomyXml : String) (d : Doc) : Doc × List String × Nat :=
  let result := oracles.labelLLM d.content taxonomyXml
  match parseCategoryId result with
  | none =>
    ({ d with category := some "Other" },
     ["No category ID for doc " ++ d.id ++ ", using \x27Other\x27"], 1)
  | some categoryId =>
    match getCategoryNameById? categoryId taxonomy with
    | some categoryName => ({ d with category := some categoryName }, [], 0)
    | none =>
      ({ d with category := some "Other" },
       ["Invalid category ID " ++ categoryId ++ " for doc " ++ d.id ++
         ", using \x27Other\x27"], 1)

/-- The labeling loop over the full corpus, accumulating labeled documents,
warnings, and skippedCount. -/
def labelLoop (taxonomy : List TaxonomyCategory) (oracles : Oracles)
    (taxonomyXml : String) : List Doc → List Doc × List String × Nat
  | [] => ([], [], 0)
  | d :: ds =>
    let r := labelOneDoc taxonomy oracles taxonomyXml d
    let rest := labelLoop taxonomy oracles taxonomyXml ds
    (r.1 :: rest.1, r.2.1 ++ rest.2.1, r.2.2 + rest.2.2)

/-- labelDocuments from nodes.ts: labels state.allDocuments (the full
corpus, not the sample) against the last taxonomy snapshot. -/
def labelDocuments (oracles : Oracles) (s : GraphState) : GraphState :=
  let taxonomy := s.clusters.getLastD []
  let taxonomyXml := formatTaxonomyAsXml taxonomy
  let r := labelLoop taxonomy oracles taxonomyXml s.allDocuments
  { s with
    documents := r.1,
    llmLabeledCount := r.1.length,
    classifierLabeledCount := 0,
    skippedDocumentCount := r.2.2,
    warnings := s.warnings ++ r.2.1,
    status := s.status ++
      ["Labeled " ++ toString r.1.length ++ " documents"] }

/-- shouldReview from nodes.ts; true stands for the edge to
review_taxonomy, false for the loop back to update_taxonomy. -/
def shouldReview (s : GraphState) : Bool :=
  s.minibatches.length ≤ s.clusters.length

/-- shouldDiscoverTaxonomy from nodes.ts; true stands for the edge straight
to label_documents (a predefined taxonomy is present), false for the edge
into summarize. -/
def shouldDiscoverTaxonomy (s : GraphState) : Bool :=
  0 < s.clusters.length

/-- The final label_documents step together with its log entries. -/
def labelStep (oracles : Oracles) (st : GraphState × RunLog) :
    GraphState × RunLog :=
  (labelDocuments oracles st.1,
   { st.2 with
     trace := st.2.trace ++ ["label_documents"],
     labelCalls := st.2.labelCalls + st.1.allDocuments.length })

/-- The update_taxonomy / shouldReview loop of the graph.  Each productive
pass appends one snapshot, so minibatches.length + 1 iterations of fuel
always suffice; a non-productive pass (every batch already processed)
satisfies shouldReview at once. -/
def updateLoop (cfg : DelveConfig) (oracles : Oracles) :
    Nat → GraphState × RunLog → GraphState × RunLog
  | 0, st => st
  | fuel + 1, st =>
    let calls := if st.1.clusters.length < st.1.minibatches.length then 1 else 0
    let s' := updateTaxonomy cfg oracles st.1
    let log' := { st.2 with
      trace := st.2.trace ++ ["update_taxonomy"],
      genCalls := st.2.genCalls + calls }
    if shouldReview s' then (s', log')
    else updateLoop cfg oracles fuel (s', log')

/-- The summarize step together with its log entries (one summary chain
invocation per sampled document). -/
def summarizeStep (oracles : Oracles) (st : GraphState × RunLog) :
    GraphState × RunLog :=
  (summarize oracles st.1,
   { st.2 with
     trace := st.2.trace ++ ["summarize"],
     sumCalls := st.2.sumCalls + st.1.documents.length })

/-- The get_minibatches step together with its log entry. -/
def minibatchStep (cfg : DelveConfig) (st : GraphState × RunLog) :
    GraphState × RunLog :=
  (getMinibatches cfg st.1,
   { st.2 with trace := st.2.trace ++ ["get_minibatches"] })

/-- The generate_taxonomy step together with its log entries (exactly one
taxonomy-generation chain invocation). -/
def generateStep (cfg : DelveConfig) (oracles : Oracles)
    (st : GraphState × RunLog) : GraphState × RunLog :=
  (generateTaxonomy cfg oracles st.1,
   { st.2 with
     trace := st.2.trace ++ ["generate_taxonomy"],
     genCalls := st.2.genCalls + 1 })

/-- The review_taxonomy step together with its log entry. -/
def reviewStep (st : GraphState × RunLog) : GraphState × RunLog :=
  (reviewTaxonomy st.1,
   { st.2 with trace := st.2.trace ++ ["review_taxonomy"] })

/-- The discovery branch of the graph after load_data: summarize →
get_minibatches → generate_taxonomy → update_taxonomy loop →
review_taxonomy → label_documents. -/
def discoveryTail (cfg : DelveConfig) (oracles : Oracles)
    (st1 : GraphState × RunLog) : GraphState × RunLog :=
  let st4 := generateStep cfg oracles
    (minibatchStep cfg (summarizeStep oracles st1))
  labelStep oracles (reviewStep
    (updateLoop cfg oracles (st4.1.minibatches.length + 1) st4))

/-- The compiled graph of client.ts: START → load_data, then either straight
to label_documents (predefined taxonomy) or through the discovery branch. -/
def runGraph (cfg : DelveConfig) (oracles : Oracles) (rand : Nat → Nat)
    (s0 : GraphState) : GraphState × RunLog :=
  let st1 := (loadData cfg rand s0,
    ({ trace := ["load_data"], genCalls := 0, sumCalls := 0,
       labelCalls := 0 } : RunLog))
  if shouldDiscoverTaxonomy st1.1 then
    labelStep oracles st1
  else
    discoveryTail cfg oracles st1

/-- normalizePredefinedTaxonomy from client.ts. -/
def normalizePredefinedTaxonomy (taxonomy : List TaxonomyCategory) :
    List TaxonomyCategory :=
  taxonomy.map fun cat =>
    { id := cat.id, name := cat.name, description := cat.description }

/-- The document normalization of Delve.run for Doc inputs:
doc.id || String(index + 1). -/
def normalizeDocs (documents : List Doc) : List Doc :=
  documents.enum.map fun p =>
    { p.2 with id := if p.2.id = "" then toString (p.1 + 1) else p.2.id }

/-- Run options of Delve.run. -/
structure RunOptions where
  useCase : Option String := none
  predefinedTaxonomy : Option (List TaxonomyCategory) := none

/-- The initial graph state built by Delve.run.  Any supplied predefined
taxonomy (a JavaScript array is truthy even when empty) becomes the sole
starting snapshot. -/
def mkInitialState (docs : List Doc) (cfg : DelveConfig)
    (options : RunOptions) : GraphState :=
  { allDocuments := normalizeDocs docs,
    documents := [],
    minibatches := [],
    clusters :=
      match options.predefinedTaxonomy with
      | some t => [normalizePredefinedTaxonomy t]
      | none => [],
    useCase := jsOr options.useCase (jsOr cfg.useCase
      "Generate taxonomy for categorizing document content"),
    status := [],
    llmLabeledCount := 0,
    classifierLabeledCount := 0,
    skippedDocumentCount := 0,
    warnings := [] }

/-- Delve.run: normalize documents, build the initial state, run the
graph. -/
def delveRun (cfg : DelveConfig) (oracles : Oracles) (rand : Nat → Nat)
    (docs : List Doc) (options : RunOptions) : GraphState × RunLog :=
  runGraph cfg oracles rand (mkInitialState docs cfg options)

/-- The fields of DelveResult computed by Delve.buildResult that the claims
mention (timing and model names omitted). -/
structure DelveResult where
  taxonomy : List TaxonomyCategory
  labeledDocuments : List Doc
  numDocuments : Nat
  numCategories : Nat
  llmLabeledCount : Nat
  classifierLabeledCount : Nat
  skippedDocumentCount : Nat
  warnings : List String
deriving DecidableEq, Repr

/-- Delve.buildResult from client.ts. -/
def buildResult (s : GraphState) : DelveResult :=
  let taxonomy := s.clusters.getLastD []
  { taxonomy := taxonomy,
    labeledDocuments := s.documents,
    numDocuments := s.allDocuments.length,
    numCategories := taxonomy.length,
    llmLabeledCount := s.llmLabeledCount,
    classifierLabeledCount := s.classifierLabeledCount,
    skippedDocumentCount := s.skippedDocumentCount,
    warnings := s.warnings }

/-- Batcher contract: the concatenation of the batches is the ascending
index range itself (hence the batches are contiguous, non-overlapping,
exhaustive over [0, docCount) and ordered ascending); every batch is
non-empty of size at most batchSize; every batch but the last has size
exactly batchSize; and a positive count at most batchSize yields a single
batch of all indices. -/
def batcherSpec (docCount batchSize : Nat) : Prop :=
  let batches := generateMinibatches docCount batchSize
  batches.flatten = List.range docCount ∧
  (∀ b ∈ batches, b.length ≤ batchSize ∧ b ≠ []) ∧
  (∀ b ∈ batches.dropLast, b.length = batchSize) ∧
  (1 ≤ docCount → docCount ≤ batchSize → batches = [List.range docCount])

/-- Sampler contract: out-of-range sample sizes return the input list
itself (the source returns a fresh copy and never mutates or reorders the
caller's list; list values are equal); an in-range size returns exactly
sampleSize elements drawn from the input without reusing a position, so no
multiplicity grows and a duplicate-free input yields a duplicate-free
sample. -/
def samplerSpec (docs : List Doc) (sampleSize : Int)
    (rand : Nat → Nat) : Prop :=
  let sampled := sampleDocuments docs sampleSize rand
  ((sampleSize ≤ 0 ∨ (docs.length : Int) ≤ sampleSize) → sampled = docs) ∧
  (0 < sampleSize → sampleSize < (docs.length : Int) →
    (sampled.length : Int) = sampleSize ∧
    (∀ d : Doc, sampled.count d ≤ docs.count d) ∧
    (docs.Nodup → sampled.Nodup))

/-- Labeler contract: llmLabeledCount is the full corpus size, the labeled
list covers the corpus pointwise, skippedDocumentCount counts exactly the
documents whose classification yields no id present in the taxonomy, every
such document is labeled Other with a warning naming its id recorded, and a
document with a valid id receives that category's name. -/
def labelerSpec (oracles : Oracles) (s : GraphState) : Prop :=
  let s' := labelDocuments oracles s
  let taxonomy := s.clusters.getLastD []
  let xml := formatTaxonomyAsXml taxonomy
  s'.llmLabeledCount = s.allDocuments.length ∧
  s'.documents.length = s.allDocuments.length ∧
  s'.skippedDocumentCount =
    s.allDocuments.countP (fun d =>
      !(taxonomy.any fun c =>
        parseCategoryId (oracles.labelLLM d.content xml) == some c.id)) ∧
  ∀ (i : Nat) (d : Doc), s.allDocuments[i]? = some d →
    ∃ ld, s'.documents[i]? = some ld ∧
      ((¬ ∃ c ∈ taxonomy, parseCategoryId (oracles.labelLLM d.content xml)
          = some c.id) →
        ld.category = some "Other" ∧
        (parseCategoryId (oracles.labelLLM d.content xml) = none →
          ("No category ID for doc " ++ d.id ++ ", using \x27Other\x27")
            ∈ s'.warnings) ∧
        (∀ cid, parseCategoryId (oracles.labelLLM d.content xml) = some cid →
          ("Invalid category ID " ++ cid ++ " for doc " ++ d.id ++
            ", using \x27Other\x27") ∈ s'.warnings)) ∧
      ((taxonomy.map (·.id)).Nodup →
        ∀ c ∈ taxonomy, parseCategoryId (oracles.labelLLM d.content xml)
            = some c.id →
          ld.category = some c.name)

/-- Full-corpus coverage contract: after a run, the labeled output has one
entry per document of the original corpus, in order, each being that
document with a (non-null) category filled in. -/
def fullCoverageSpec (cfg : DelveConfig) (oracles : Oracles)
    (rand : Nat → Nat) (docs : List Doc) (options : RunOptions) : Prop :=
  let final := (delveRun cfg oracles rand docs options).1
  let res := buildResult final
  final.allDocuments = normalizeDocs docs ∧
  res.labeledDocuments.length = docs.length ∧
  (∀ ld ∈ res.labeledDocuments, ld.category.isSome = true) ∧
  ∀ (i : Nat) (d : Doc), final.allDocuments[i]? = some d →
    ∃ nm, res.labeledDocuments[i]? = some { d with category := some nm }

/-- Predefined-taxonomy routing contract: the run goes from load_data
straight to label_documents, no taxonomy-generation or summarization call
is ever issued, and the supplied taxonomy is the sole snapshot, used as the
final taxonomy. -/
def predefinedPathSpec (cfg : DelveConfig) (oracles : Oracles)
    (rand : Nat → Nat) (docs : List Doc) (useCase : Option String)
    (predef : List TaxonomyCategory) : Prop :=
  let out := delveRun cfg oracles rand docs
    { useCase := useCase, predefinedTaxonomy := some predef }
  out.2.trace = ["load_data", "label_documents"] ∧
  out.2.genCalls = 0 ∧
  out.2.sumCalls = 0 ∧
  out.1.clusters = [normalizePredefinedTaxonomy predef] ∧
  (buildResult out.1).taxonomy = normalizePredefinedTaxonomy predef

/-- Summarizer contract: a generation output lacking a summary or
explanation tag parses to the empty string for that field rather than
failing, and the summarization step stores the parsed (possibly empty)
fields on every document. -/
def summarizerSpec (s : String) (oracles : Oracles)
    (docs : List Doc) : Prop :=
  (¬ sandwiched "<summary>".data s.data → (parseSummary s).summary = "") ∧
  (¬ sandwiched "</summary>".data s.data → (parseSummary s).summary = "") ∧
  (¬ sandwiched "<explanation>".data s.data →
    (parseSummary s).explanation = "") ∧
  (¬ sandwiched "</explanation>".data s.data →
    (parseSummary s).explanation = "") ∧
  (summarizeDocs oracles docs).length = docs.length ∧
  ∀ (i : Nat) (d : Doc), docs[i]? = some d →
    (summarizeDocs oracles docs)[i]? = some
      { d with
        summary := some (parseSummary (oracles.summaryLLM d.content)).summary,
        explanation :=
          some (parseSummary (oracles.summaryLLM d.content)).explanation }

/-- Parsed taxonomy ids are taken verbatim from the generation text: each
is a non-empty run of decimal digits occurring contiguously in the raw
input, not a position-derived serial number. -/
def taxonomyIdSpec (s : String) : Prop :=
  ∀ c ∈ parseTaxonomy s,
    c.id ≠ "" ∧ c.id.data.all jsDigit = true ∧ sandwiched c.id.data s.data

/-- parseTaxonomy inclusion contract: every produced category carries a
numeric id; without a cluster_table wrapper the whole input is scanned for
cluster blocks and each block with both id and name becomes an output
category; a block missing the description tag defaults to an empty
description; a block lacking id or name is dropped. -/
def parseTaxonomySpec (s : String) : Prop :=
  (∀ c ∈ parseTaxonomy s, c.id ≠ "" ∧ c.id.data.all jsDigit = true) ∧
  (¬ sandwiched "<cluster_table>".data s.data →
    parseTaxonomy s = (extractClusters s.data).filterMap clusterToCategory) ∧
  (¬ sandwiched "<cluster_table>".data s.data →
    ∀ block ∈ extractClusters s.data, ∀ c, clusterToCategory block = some c →
      c ∈ parseTaxonomy s) ∧
  ∀ block : List Char,
    ((idCapture block).isSome = true → (nameCapture block).isSome = true →
      ∃ c, clusterToCategory block = some c ∧
        (¬ sandwiched "<description>".data block → c.description = "")) ∧
    ((idCapture block).isNone = true ∨ (nameCapture block).isNone = true →
      clusterToCategory block = none)

/-- A one-document corpus used by the concrete evaluations. -/
def cexDocs : List Doc := [{ id := "d1", content := "hello" }]

/-- A generation output whose single cluster carries the raw id 7. -/
def cexRawIdText : String := "<cluster><id>7</id><name>A</name></cluster>"

/-- A generation output with two cluster elements. -/
def cexTwoClusterText : String :=
  "<cluster><id>1</id><name>A</name><description>a</description></cluster>" ++
  "<cluster><id>2</id><name>B</name><description>b</description></cluster>"

/-- Oracles whose taxonomy call always proposes two categories. -/
def cexOraclesCap : Oracles where
  summaryLLM := fun _ => ""
  taxonomyLLM := fun _ _ _ => cexTwoClusterText
  labelLLM := fun _ _ => ""

/-- A configuration capping the taxonomy at one category. -/
def cexCfgCap : DelveConfig := { maxNumClusters := 1 }

/-- A generation output containing no parseable cluster at all. -/
def cexNoClusterText : String := "no clusters here"

/-- Oracles whose taxonomy call yields zero parseable categories. -/
def cexOraclesEmpty : Oracles where
  summaryLLM := fun _ => ""
  taxonomyLLM := fun _ _ _ => cexNoClusterText
  labelLLM := fun _ _ => ""

/-- Oracles producing well-formed outputs, used by witnesses. -/
def cexOraclesGood : Oracles where
  summaryLLM := fun _ => "<summary>s</summary><explanation>e</explanation>"
  taxonomyLLM := fun _ _ _ =>
    "<cluster_table><cluster><id>1</id><name>A</name>" ++
    "<description>a</description></cluster></cluster_table>"
  labelLLM := fun _ _ => "<category_id>1</category_id>"

/-- A two-document corpus used by the concrete evaluations. -/
def cexDocsTwo : List Doc :=
  [{ id := "d1", content := "hello" }, { id := "d2", content := "world" }]

/-- A one-category predefined taxonomy used by the concrete evaluations. -/
def cexPredef : List TaxonomyCategory := [⟨"1", "P", "p"⟩]

/-- A graph state holding a two-category snapshot, used by witnesses. -/
def cexLabelState : GraphState :=
  { allDocuments := cexDocsTwo,
    documents := [],
    minibatches := [],
    clusters := [[⟨"1", "A", "a"⟩, ⟨"2", "B", "b"⟩]],
    useCase := "",
    status := [],
    llmLabeledCount := 0,
    classifierLabeledCount := 0,
    skippedDocumentCount := 0,
    warnings := [] }



lemma minibatchLoop_ne_nil {l : List Nat} {bs j f : Nat}
    (h : minibatchLoop l bs j f ≠ []) : j < l.length := by
  cases f with
  | zero => simp [minibatchLoop] at h
  | succ f =>
    by_contra hj
    simp [minibatchLoop, hj] at h

lemma minibatchLoop_flatten (l : List Nat) (bs : Nat) (hbs : 1 ≤ bs) :
    ∀ (fuel i : Nat), l.length - i ≤ fuel →
      (minibatchLoop l bs i fuel).flatten = l.drop i := by
  intro fuel
  induction fuel with
  | zero =>
    intro i h
    have : l.length ≤ i := by omega
    simp [minibatchLoop, List.drop_eq_nil_of_le this]
  | succ fuel ih =>
    intro i h
    simp only [minibatchLoop]
    split
    · next hi =>
      rw [List.flatten_cons, ih (i + bs) (by omega)]
      have hdd : l.drop (i + bs) = (l.drop i).drop bs := by
        rw [List.drop_drop]
      rw [hdd, List.take_append_drop]
    · next hi =>
      simp [List.drop_eq_nil_of_le (by omega : l.length ≤ i)]

lemma minibatchLoop_sizes (l : List Nat) (bs : Nat) (hbs : 1 ≤ bs) :
    ∀ (fuel i : Nat), ∀ b ∈ minibatchLoop l bs i fuel,
      b.length ≤ bs ∧ b ≠ [] := by
  intro fuel
  induction fuel with
  | zero => intro i b hb; simp [minibatchLoop] at hb
  | succ fuel ih =>
    intro i b hb
    simp only [minibatchLoop] at hb
    split at hb
    · next hi =>
      rcases List.mem_cons.1 hb with rfl | hb
      · constructor
        · simp
        · have hlen : 0 < ((l.drop i).take bs).length := by
            simp
            omega
          exact List.ne_nil_of_length_pos hlen
      · exact ih (i + bs) b hb
    · simp at hb

lemma minibatchLoop_dropLast (l : List Nat) (bs : Nat) (hbs : 1 ≤ bs) :
    ∀ (fuel i : Nat), l.length - i ≤ fuel →
      ∀ b ∈ (minibatchLoop l bs i fuel).dropLast, b.length = bs := by
  intro fuel
  induction fuel with
  | zero => intro i _ b hb; simp [minibatchLoop] at hb
  | succ fuel ih =>
    intro i h b hb
    simp only [minibatchLoop] at hb
    split at hb
    · next hi =>
      cases htl : minibatchLoop l bs (i + bs) fuel with
      | nil => rw [htl] at hb; simp at hb
      | cons x xs =>
        rw [htl] at hb
        rw [List.dropLast_cons₂] at hb
        rcases List.mem_cons.1 hb with rfl | hb
        · have hlt : i + bs < l.length :=
            minibatchLoop_ne_nil (htl ▸ (by simp : (x :: xs : List (List Nat)) ≠ []))
          simp
          omega
        · rw [← htl] at hb
          exact ih (i + bs) (by omega) b hb
    · simp at hb

/-- C6 (amended): for every count and positive batchSize, generateMinibatches
returns contiguous, non-overlapping, exhaustive index batches covering
[0, count) in ascending order, each of length batchSize except a possibly
shorter (never empty) last one; when 1 ≤ count ≤ batchSize it returns one
batch of all indices.  (A zero count yields no batches at all, see the
counterexample.) -/
theorem batcher_partition (docCount batchSize : Nat) (hbs : 1 ≤ batchSize) :
    batcherSpec docCount batchSize := by
  unfold batcherSpec generateMinibatches
  refine ⟨?_, ?_, ?_, ?_⟩
  · simpa using minibatchLoop_flatten (List.range docCount) batchSize hbs (docCount + 1) 0 (by simp)
  · exact fun b hb => minibatchLoop_sizes (List.range docCount) batchSize hbs (docCount + 1) 0 b hb
  · exact fun b hb => minibatchLoop_dropLast (List.range docCount) batchSize hbs (docCount + 1) 0 (by simp) b hb
  · intro h1 h2
    cases docCount with
    | zero => omega
    | succ c =>
      simp only [minibatchLoop]
      rw [if_pos (by simp)]
      rw [if_neg (by simp; omega)]
      have hle : (List.range (c + 1)).length ≤ batchSize := by simp; omega
      simp [List.take_of_length_le hle]


/-- C6 counterexample input: a zero count with a positive batch size yields
no batches at all, not one batch. -/
theorem batcher_zero_count_cex :
    generateMinibatches 0 1 = [] ∧ (generateMinibatches 0 1).length ≠ 1 := by
  decide

theorem batcher_partition_witness : 1 ≤ 2 ∧ batcherSpec 5 2 :=
  ⟨by decide, batcher_partition 5 2 (by decide)⟩

lemma count_set_balance {α : Type} [DecidableEq α] :
    ∀ (l : List α) (i : Nat) (b x : α) (h : i < l.length),
      (l.set i b).count x + (if l[i] = x then 1 else 0)
        = l.count x + (if b = x then 1 else 0) := by
  intro l
  induction l with
  | nil => intro i b x h; simp at h
  | cons a t ih =>
    intro i b x h
    cases i with
    | zero =>
      simp only [List.set_cons_zero, List.count_cons, List.getElem_cons_zero]
      by_cases hax : a = x <;> by_cases hbx : b = x <;>
        simp [hax, hbx]
    | succ n =>
      have hn : n < t.length := by simpa using h
      simp only [List.set_cons_succ, List.count_cons, List.getElem_cons_succ]
      have := ih n b x hn
      by_cases hax : a = x <;> simp [hax] <;> omega

lemma swapIdx_perm {α : Type} [DecidableEq α] (l : List α) (i j : Nat) :
    List.Perm (swapIdx l i j) l := by
  unfold swapIdx
  cases hx : l[i]? with
  | none => exact List.Perm.refl l
  | some x =>
    cases hy : l[j]? with
    | none => exact List.Perm.refl l
    | some y =>
      have hi : i < l.length := by
        rcases List.getElem?_eq_some.1 hx with ⟨h, _⟩; exact h
      have hj : j < l.length := by
        rcases List.getElem?_eq_some.1 hy with ⟨h, _⟩; exact h
      have hxe : l[i] = x := by
        rcases List.getElem?_eq_some.1 hx with ⟨_, e⟩; exact e
      have hye : l[j] = y := by
        rcases List.getElem?_eq_some.1 hy with ⟨_, e⟩; exact e
      rw [List.perm_iff_count]
      intro a
      have hjA : j < (l.set i y).length := by simpa using hj
      have e1 := count_set_balance (l.set i y) j x a hjA
      have e2 := count_set_balance l i y a hi
      have hAj : (l.set i y)[j] = y := by
        rw [List.getElem_set]
        split
        · rfl
        · exact hye
      rw [hAj] at e1
      rw [hxe] at e2
      by_cases h1 : y = a <;> by_cases h2 : x = a <;>
        simp [h1, h2] at e1 e2 ⊢ <;> omega

lemma fisherYates_perm {α : Type} [DecidableEq α] (rand : Nat → Nat) :
    ∀ (n : Nat) (l : List α), List.Perm (fisherYates rand l n) l := by
  intro n
  induction n with
  | zero => intro l; exact List.Perm.refl l
  | succ n ih =>
    intro l
    exact (ih _).trans (swapIdx_perm l (n + 1) (rand (n + 1)))

/-- C7: sampleDocuments returns the input list itself when sampleSize ≤ 0 or
sampleSize ≥ |docs| (the source hands back a fresh copy, never mutating or
reordering the caller's list), and otherwise exactly sampleSize documents
drawn from the input without reusing any position, for every random draw
sequence; a duplicate-free corpus yields a duplicate-free sample. -/
theorem sampler_contract (docs : List Doc) (sampleSize : Int)
    (rand : Nat → Nat) : samplerSpec docs sampleSize rand := by
  unfold samplerSpec sampleDocuments
  constructor
  · intro h
    rw [if_pos h]
  · intro h1 h2
    rw [if_neg (by omega)]
    have hperm := fisherYates_perm rand (docs.length - 1) docs
    have hlen : (fisherYates rand docs (docs.length - 1)).length
        = docs.length := hperm.length_eq
    have hss : sampleSize.toNat ≤ docs.length := by omega
    refine ⟨?_, ?_, ?_⟩
    · simp only [List.length_take, hlen]
      omega
    · intro d
      calc ((fisherYates rand docs (docs.length - 1)).take
              sampleSize.toNat).count d
          ≤ (fisherYates rand docs (docs.length - 1)).count d :=
            (List.take_sublist _ _).count_le d
        _ = docs.count d := hperm.count_eq d
    · intro hnd
      exact ((List.take_sublist _ _).nodup (hperm.nodup_iff.2 hnd))

theorem sampler_contract_witness : samplerSpec cexDocsTwo 1 (fun _ => 0) :=
  sampler_contract cexDocsTwo 1 (fun _ => 0)


lemma startsWith_append (pat r : List Char) :
    startsWith pat (pat ++ r) = true := by
  induction pat with
  | nil => rfl
  | cons p ps ih => simp [startsWith, ih]

lemma startsWith_exists {pat s : List Char}
    (h : startsWith pat s = true) : ∃ r, s = pat ++ r := by
  induction pat generalizing s with
  | nil => exact ⟨s, rfl⟩
  | cons p ps ih =>
    cases s with
    | nil => simp [startsWith] at h
    | cons c cs =>
      simp only [startsWith, Bool.and_eq_true, beq_iff_eq] at h
      rcases ih h.2 with ⟨r, hr⟩
      exact ⟨r, by simp [h.1, hr]⟩

lemma sandwiched_of_firstIdx_some {pat s : List Char} {i : Nat}
    (h : firstIdx pat s = some i) : sandwiched pat s := by
  induction s generalizing i with
  | nil =>
    simp only [firstIdx] at h
    split at h
    · next hs =>
      rcases startsWith_exists hs with ⟨r, hr⟩
      exact ⟨[], r, by simpa using hr⟩
    · simp at h
  | cons c cs ih =>
    simp only [firstIdx] at h
    split at h
    · next hs =>
      rcases startsWith_exists hs with ⟨r, hr⟩
      exact ⟨[], r, by simpa using hr⟩
    · cases hfi : firstIdx pat cs with
      | none => rw [hfi] at h; simp at h
      | some k =>
        rcases ih hfi with ⟨l, r, hlr⟩
        exact ⟨c :: l, r, by simp [hlr]⟩

lemma firstIdx_eq_none {pat s : List Char}
    (h : ¬ sandwiched pat s) : firstIdx pat s = none := by
  cases hfi : firstIdx pat s with
  | none => rfl
  | some i => exact absurd (sandwiched_of_firstIdx_some hfi) h

lemma sandwiched_trans {t u s : List Char}
    (h1 : sandwiched t u) (h2 : sandwiched u s) : sandwiched t s := by
  rcases h1 with ⟨a, b, rfl⟩
  rcases h2 with ⟨c, d, rfl⟩
  exact ⟨c ++ a, b ++ d, by simp⟩

lemma sandwiched_drop (s : List Char) (m : Nat) :
    sandwiched (s.drop m) s :=
  ⟨s.take m, [], by simp⟩

lemma sandwiched_take (s : List Char) (m : Nat) :
    sandwiched (s.take m) s :=
  ⟨[], s.drop m, by simp⟩

lemma extractBetween_eq_none_left {openTag closeTag s : List Char}
    (h : ¬ sandwiched openTag s) :
    extractBetween openTag closeTag s = none := by
  unfold extractBetween
  rw [firstIdx_eq_none h]

lemma extractBetween_eq_none_right {openTag closeTag s : List Char}
    (h : ¬ sandwiched closeTag s) :
    extractBetween openTag closeTag s = none := by
  unfold extractBetween
  cases hfi : firstIdx openTag s with
  | none => rfl
  | some i =>
    have hnone : firstIdx closeTag (s.drop (i + openTag.length)) = none := by
      apply firstIdx_eq_none
      intro hsw
      exact h (sandwiched_trans hsw (sandwiched_drop s (i + openTag.length)))
    simp [hnone]

/-- C9: parseSummary is total — a generation output lacking the summary or
explanation tag parses to the empty string for that field instead of
raising — and the summarization step stores the parsed (possibly empty)
fields on every document, never aborting the run. -/
theorem summarizer_total (s : String) (oracles : Oracles)
    (docs : List Doc) : summarizerSpec s oracles docs := by
  unfold summarizerSpec
  refine ⟨?_, ?_, ?_, ?_, ?_, ?_⟩
  · intro h
    simp [parseSummary, extractBetween_eq_none_left h]
  · intro h
    simp [parseSummary, extractBetween_eq_none_right h]
  · intro h
    simp [parseSummary, extractBetween_eq_none_left h]
  · intro h
    simp [parseSummary, extractBetween_eq_none_right h]
  · simp [summarizeDocs]
  · intro i d hd
    simp [summarizeDocs, List.getElem?_map, hd]

theorem summarizer_total_witness :
    summarizerSpec "no tags" cexOraclesGood cexDocsTwo :=
  summarizer_total "no tags" cexOraclesGood cexDocsTwo


lemma labelLoop_fst (t : List TaxonomyCategory) (o : Oracles) (x : String) :
    ∀ ds : List Doc, (labelLoop t o x ds).1
      = ds.map fun d => (labelOneDoc t o x d).1 := by
  intro ds
  induction ds with
  | nil => rfl
  | cons d rest ih => simp [labelLoop, ih]

lemma labelLoop_warnings (t : List TaxonomyCategory) (o : Oracles)
    (x : String) : ∀ ds : List Doc, (labelLoop t o x ds).2.1
      = (ds.map fun d => (labelOneDoc t o x d).2.1).flatten := by
  intro ds
  induction ds with
  | nil => rfl
  | cons d rest ih => simp [labelLoop, ih]


lemma labelOneDoc_skip (t : List TaxonomyCategory) (o : Oracles)
    (x : String) (d : Doc) : (labelOneDoc t o x d).2.2
      = if t.any (fun c => parseCategoryId (o.labelLLM d.content x) == some c.id)
        then 0 else 1 := by
  cases hp : parseCategoryId (o.labelLLM d.content x) with
  | none =>
    simp only [labelOneDoc, hp]
    rw [if_neg]
    simp
  | some cid =>
    cases hf : getCategoryNameById? cid t with
    | none =>
      simp only [labelOneDoc, hp, hf]
      rw [if_neg]
      intro hany
      rcases List.any_eq_true.1 hany with ⟨c, hc, hbeq⟩
      have hcid : c.id = cid := by
        have : (some cid == some c.id) = true := by simpa using hbeq
        exact (beq_iff_eq.1 (by simpa using this)).symm
      unfold getCategoryNameById? at hf
      cases hff : t.find? (fun c => c.id == cid) with
      | none =>
        have hnone := List.find?_eq_none.1 hff c hc
        simp [hcid] at hnone
      | some c' => rw [hff] at hf; simp at hf
    | some nm =>
      simp only [labelOneDoc, hp, hf]
      rw [if_pos]
      unfold getCategoryNameById? at hf
      cases hff : t.find? (fun c => c.id == cid) with
      | none => rw [hff] at hf; simp at hf
      | some c' =>
        have hmem := List.mem_of_find?_eq_some hff
        have hid : c'.id = cid := by
          have := List.find?_some hff
          exact beq_iff_eq.1 (by simpa using this)
        refine List.any_eq_true.2 ⟨c', hmem, ?_⟩
        simp [hid]

lemma labelLoop_skip (t : List TaxonomyCategory) (o : Oracles) (x : String) :
    ∀ ds : List Doc, (labelLoop t o x ds).2.2
      = ds.countP (fun d =>
          !(t.any fun c => parseCategoryId (o.labelLLM d.content x) == some c.id)) := by
  intro ds
  induction ds with
  | nil => rfl
  | cons d rest ih =>
    simp only [labelLoop, List.countP_cons, ih, labelOneDoc_skip]
    by_cases hany : t.any (fun c => parseCategoryId (o.labelLLM d.content x) == some c.id) = true
    · simp [hany]
    · simp [hany]
      omega

lemma getCategoryNameById_eq_none (t : List TaxonomyCategory) (cid : String)
    (h : ¬ ∃ c ∈ t, cid = c.id) : getCategoryNameById? cid t = none := by
  unfold getCategoryNameById?
  cases hff : t.find? (fun c => c.id == cid) with
  | none => rfl
  | some c' =>
    exfalso
    refine h ⟨c', List.mem_of_find?_eq_some hff, ?_⟩
    have := List.find?_some hff
    exact (beq_iff_eq.1 (by simpa using this)).symm

lemma labelOneDoc_fallback (t : List TaxonomyCategory) (o : Oracles)
    (x : String) (d : Doc)
    (h : ¬ ∃ c ∈ t, parseCategoryId (o.labelLLM d.content x) = some c.id) :
    (labelOneDoc t o x d).1.category = some "Other" ∧
    (parseCategoryId (o.labelLLM d.content x) = none →
      (labelOneDoc t o x d).2.1
        = ["No category ID for doc " ++ d.id ++ ", using \x27Other\x27"]) ∧
    (∀ cid, parseCategoryId (o.labelLLM d.content x) = some cid →
      (labelOneDoc t o x d).2.1
        = ["Invalid category ID " ++ cid ++ " for doc " ++ d.id ++
            ", using \x27Other\x27"]) := by
  cases hp : parseCategoryId (o.labelLLM d.content x) with
  | none =>
    simp only [labelOneDoc, hp]
    simp
  | some cid =>
    have hf : getCategoryNameById? cid t = none := by
      apply getCategoryNameById_eq_none
      intro ⟨c, hc, hcid⟩
      exact h ⟨c, hc, by rw [hp, hcid]⟩
    simp only [labelOneDoc, hp, hf]
    simp

lemma find?_eq_of_nodup_ids {t : List TaxonomyCategory}
    (hnd : (t.map TaxonomyCategory.id).Nodup) {c : TaxonomyCategory}
    (hc : c ∈ t) : t.find? (fun x => x.id == c.id) = some c := by
  induction t with
  | nil => simp at hc
  | cons a rest ih =>
    by_cases ha : (a.id == c.id) = true
    · have haid : a.id = c.id := beq_iff_eq.1 ha
      have hac : a = c := by
        rcases List.mem_cons.1 hc with rfl | hcr
        · rfl
        · exfalso
          have hmem : c.id ∈ rest.map TaxonomyCategory.id :=
            List.mem_map.2 ⟨c, hcr, rfl⟩
          rw [← haid] at hmem
          exact (List.nodup_cons.1 hnd).1 hmem
      have hstep : List.find? (fun x => x.id == c.id) (a :: rest) = some a :=
        List.find?_cons_of_pos rest ha
      rw [hstep, hac]
    · have hcr : c ∈ rest := by
        rcases List.mem_cons.1 hc with rfl | hcr
        · exact absurd (by simp) ha
        · exact hcr
      have hstep : List.find? (fun x => x.id == c.id) (a :: rest)
          = List.find? (fun x => x.id == c.id) rest :=
        List.find?_cons_of_neg rest ha
      rw [hstep]
      exact ih (List.nodup_cons.1 hnd).2 hcr

lemma labelOneDoc_valid (t : List TaxonomyCategory) (o : Oracles)
    (x : String) (d : Doc)
    (hnd : (t.map TaxonomyCategory.id).Nodup) {c : TaxonomyCategory}
    (hc : c ∈ t)
    (hp : parseCategoryId (o.labelLLM d.content x) = some c.id) :
    (labelOneDoc t o x d).1.category = some c.name := by
  have hf : getCategoryNameById? c.id t = some c.name := by
    unfold getCategoryNameById?
    rw [find?_eq_of_nodup_ids hnd hc]
    rfl
  simp only [labelOneDoc, hp, hf]

/-- C3: for every document the labeler processes, an unparseable or unknown
category id yields the fallback category Other, one skippedDocumentCount
increment and a warning naming that document's id, while a valid id yields
the matching category's name; llmLabeledCount equals the number of
documents processed and skippedDocumentCount counts exactly the fallback
assignments. -/
theorem labeler_contract (oracles : Oracles) (s : GraphState) :
    labelerSpec oracles s := by
  unfold labelerSpec labelDocuments
  simp only
  refine ⟨?_, ?_, ?_, ?_⟩
  · rw [labelLoop_fst]; simp
  · rw [labelLoop_fst]; simp
  · exact labelLoop_skip _ _ _ _
  · intro i d hd
    refine ⟨(labelOneDoc (s.clusters.getLastD []) oracles
      (formatTaxonomyAsXml (s.clusters.getLastD [])) d).1, ?_, ?_, ?_⟩
    · rw [labelLoop_fst]
      simp [List.getElem?_map, hd]
    · intro hno
      rcases labelOneDoc_fallback (s.clusters.getLastD []) oracles
        (formatTaxonomyAsXml (s.clusters.getLastD [])) d hno with ⟨hcat, hw1, hw2⟩
      refine ⟨hcat, ?_, ?_⟩
      · intro hnone
        apply List.mem_append_right
        rw [labelLoop_warnings]
        refine List.mem_flatten.2 ⟨_, List.mem_map.2
          ⟨d, ?_, rfl⟩, ?_⟩
        · rcases List.getElem?_eq_some.1 hd with ⟨hlt, rfl⟩
          exact List.getElem_mem hlt
        · rw [hw1 hnone]; simp
      · intro cid hcid
        apply List.mem_append_right
        rw [labelLoop_warnings]
        refine List.mem_flatten.2 ⟨_, List.mem_map.2
          ⟨d, ?_, rfl⟩, ?_⟩
        · rcases List.getElem?_eq_some.1 hd with ⟨hlt, rfl⟩
          exact List.getElem_mem hlt
        · rw [hw2 cid hcid]; simp
    · intro hnd c hc hp
      exact labelOneDoc_valid _ _ _ _ hnd hc hp

theorem labeler_contract_witness : labelerSpec cexOraclesGood cexLabelState :=
  labeler_contract cexOraclesGood cexLabelState



lemma labelDocuments_clusters (oracles : Oracles) (s : GraphState) :
    (labelDocuments oracles s).clusters = s.clusters := rfl

lemma loadData_clusters (cfg : DelveConfig) (rand : Nat → Nat)
    (s : GraphState) : (loadData cfg rand s).clusters = s.clusters := rfl

lemma loadData_allDocuments (cfg : DelveConfig) (rand : Nat → Nat)
    (s : GraphState) : (loadData cfg rand s).allDocuments
      = s.allDocuments := rfl

lemma summarize_allDocuments (oracles : Oracles) (s : GraphState) :
    (summarize oracles s).allDocuments = s.allDocuments := rfl

lemma getMinibatches_allDocuments (cfg : DelveConfig) (s : GraphState) :
    (getMinibatches cfg s).allDocuments = s.allDocuments := rfl

lemma generateTaxonomy_allDocuments (cfg : DelveConfig) (oracles : Oracles)
    (s : GraphState) : (generateTaxonomy cfg oracles s).allDocuments
      = s.allDocuments := rfl

lemma reviewTaxonomy_allDocuments (s : GraphState) :
    (reviewTaxonomy s).allDocuments = s.allDocuments := rfl

lemma labelDocuments_allDocuments (oracles : Oracles) (s : GraphState) :
    (labelDocuments oracles s).allDocuments = s.allDocuments := rfl

lemma buildResult_taxonomy (s : GraphState) :
    (buildResult s).taxonomy = s.clusters.getLastD [] := rfl

/-- C8: a run supplied with a non-empty predefined taxonomy routes from
load_data straight to label_documents: the taxonomy-generation call count
is zero, summarization, discovery and revision never run, and the supplied
taxonomy is the sole snapshot used for labeling and the final result. -/
theorem predefined_skips_discovery (cfg : DelveConfig) (oracles : Oracles)
    (rand : Nat → Nat) (docs : List Doc) (useCase : Option String)
    (predef : List TaxonomyCategory) (_h : predef ≠ []) :
    predefinedPathSpec cfg oracles rand docs useCase predef := by
  unfold predefinedPathSpec delveRun
  have hcl0 : (mkInitialState docs cfg
      { useCase := useCase, predefinedTaxonomy := some predef }).clusters
      = [normalizePredefinedTaxonomy predef] := rfl
  have hcl : (loadData cfg rand (mkInitialState docs cfg
      { useCase := useCase, predefinedTaxonomy := some predef })).clusters
      = [normalizePredefinedTaxonomy predef] :=
    (loadData_clusters _ _ _).trans hcl0
  have hsd : shouldDiscoverTaxonomy (loadData cfg rand (mkInitialState docs
      cfg { useCase := useCase, predefinedTaxonomy := some predef }))
      = true := by
    unfold shouldDiscoverTaxonomy
    rw [hcl]
    rfl
  have hrun : runGraph cfg oracles rand (mkInitialState docs cfg
      { useCase := useCase, predefinedTaxonomy := some predef })
      = labelStep oracles (loadData cfg rand (mkInitialState docs cfg
          { useCase := useCase, predefinedTaxonomy := some predef }),
        { trace := ["load_data"], genCalls := 0, sumCalls := 0,
          labelCalls := 0 }) := by
    simp only [runGraph]
    rw [if_pos hsd]
  rw [hrun]
  refine ⟨rfl, rfl, rfl, hcl, ?_⟩
  rw [buildResult_taxonomy]
  rw [show (labelStep oracles (loadData cfg rand (mkInitialState docs cfg
      { useCase := useCase, predefinedTaxonomy := some predef }),
      { trace := ["load_data"], genCalls := 0, sumCalls := 0,
        labelCalls := 0 })).1.clusters
      = [normalizePredefinedTaxonomy predef] from hcl]
  rfl

theorem predefined_skips_discovery_witness :
    cexPredef ≠ [] ∧
    predefinedPathSpec {} cexOraclesGood (fun _ => 0) cexDocsTwo none
      cexPredef :=
  ⟨by decide, predefined_skips_discovery {} cexOraclesGood (fun _ => 0)
    cexDocsTwo none cexPredef (by decide)⟩

lemma updateTaxonomy_allDocuments (cfg : DelveConfig) (oracles : Oracles)
    (s : GraphState) : (updateTaxonomy cfg oracles s).allDocuments
      = s.allDocuments := by
  unfold updateTaxonomy
  by_cases hb : s.minibatches.length ≤ s.clusters.length
  · rw [if_pos hb]
  · rw [if_neg hb]

lemma updateLoop_allDocuments (cfg : DelveConfig) (oracles : Oracles) :
    ∀ (fuel : Nat) (st : GraphState × RunLog),
      (updateLoop cfg oracles fuel st).1.allDocuments
        = st.1.allDocuments := by
  intro fuel
  induction fuel with
  | zero => intro st; rfl
  | succ fuel ih =>
    intro st
    simp only [updateLoop]
    by_cases hrev : shouldReview (updateTaxonomy cfg oracles st.1) = true
    · rw [if_pos hrev]
      exact updateTaxonomy_allDocuments cfg oracles st.1
    · rw [if_neg hrev, ih]
      exact updateTaxonomy_allDocuments cfg oracles st.1

lemma summarizeStep_allDocuments (oracles : Oracles)
    (st : GraphState × RunLog) :
    (summarizeStep oracles st).1.allDocuments = st.1.allDocuments := rfl

lemma minibatchStep_allDocuments (cfg : DelveConfig)
    (st : GraphState × RunLog) :
    (minibatchStep cfg st).1.allDocuments = st.1.allDocuments := rfl

lemma generateStep_allDocuments (cfg : DelveConfig) (oracles : Oracles)
    (st : GraphState × RunLog) :
    (generateStep cfg oracles st).1.allDocuments = st.1.allDocuments := rfl

lemma reviewStep_allDocuments (st : GraphState × RunLog) :
    (reviewStep st).1.allDocuments = st.1.allDocuments := rfl

lemma discoveryTail_shape (cfg : DelveConfig) (oracles : Oracles)
    (st1 : GraphState × RunLog) :
    ∃ spre log, discoveryTail cfg oracles st1
      = (labelDocuments oracles spre, log) ∧
      spre.allDocuments = st1.1.allDocuments := by
  simp only [discoveryTail]
  rcases hloop : updateLoop cfg oracles
      ((generateStep cfg oracles (minibatchStep cfg
        (summarizeStep oracles st1))).1.minibatches.length + 1)
      (generateStep cfg oracles (minibatchStep cfg
        (summarizeStep oracles st1))) with ⟨s5, log5⟩
  refine ⟨reviewTaxonomy s5,
    (labelStep oracles (reviewStep (s5, log5))).2, rfl, ?_⟩
  rw [reviewTaxonomy_allDocuments]
  have h5 := updateLoop_allDocuments cfg oracles
    ((generateStep cfg oracles (minibatchStep cfg
      (summarizeStep oracles st1))).1.minibatches.length + 1)
    (generateStep cfg oracles (minibatchStep cfg
      (summarizeStep oracles st1)))
  rw [hloop] at h5
  rw [show (s5, log5).1.allDocuments = s5.allDocuments from rfl] at h5
  rw [h5, generateStep_allDocuments, minibatchStep_allDocuments,
    summarizeStep_allDocuments]

lemma runGraph_shape (cfg : DelveConfig) (oracles : Oracles)
    (rand : Nat → Nat) (s0 : GraphState) :
    ∃ spre log, runGraph cfg oracles rand s0
      = (labelDocuments oracles spre, log) ∧
      spre.allDocuments = s0.allDocuments := by
  by_cases hsd : shouldDiscoverTaxonomy (loadData cfg rand s0) = true
  · refine ⟨loadData cfg rand s0,
      (labelStep oracles (loadData cfg rand s0,
        { trace := ["load_data"], genCalls := 0, sumCalls := 0,
          labelCalls := 0 })).2, ?_, loadData_allDocuments cfg rand s0⟩
    simp only [runGraph]
    rw [if_pos hsd]
    rfl
  · rcases discoveryTail_shape cfg oracles (loadData cfg rand s0,
      { trace := ["load_data"], genCalls := 0, sumCalls := 0,
        labelCalls := 0 }) with ⟨spre, log, heq, hall⟩
    refine ⟨spre, log, ?_, ?_⟩
    · simp only [runGraph]
      rw [if_neg hsd]
      exact heq
    · rw [hall]
      exact loadData_allDocuments cfg rand s0

lemma labelOneDoc_shape (t : List TaxonomyCategory) (o : Oracles)
    (x : String) (d : Doc) :
    ∃ nm, (labelOneDoc t o x d).1 = { d with category := some nm } := by
  cases hp : parseCategoryId (o.labelLLM d.content x) with
  | none => exact ⟨"Other", by simp only [labelOneDoc, hp]⟩
  | some cid =>
    cases hf : getCategoryNameById? cid t with
    | none => exact ⟨"Other", by simp only [labelOneDoc, hp, hf]⟩
    | some nm => exact ⟨nm, by simp only [labelOneDoc, hp, hf]⟩

lemma normalizeDocs_length (docs : List Doc) :
    (normalizeDocs docs).length = docs.length := by
  simp [normalizeDocs]

/-- C4: after a completed run on a non-empty corpus, the labeled output has
exactly one entry per document of the entire original corpus (not just the
sample), in order, each entry being that document with a non-null category
filled in. -/
theorem full_corpus_coverage (cfg : DelveConfig) (oracles : Oracles)
    (rand : Nat → Nat) (docs : List Doc) (options : RunOptions)
    (_h : docs ≠ []) : fullCoverageSpec cfg oracles rand docs options := by
  unfold fullCoverageSpec delveRun
  rcases runGraph_shape cfg oracles rand (mkInitialState docs cfg options)
    with ⟨spre, log, heq, hall⟩
  have hall0 : spre.allDocuments = normalizeDocs docs := by
    rw [hall]; rfl
  rw [heq]
  have hdocs : (labelDocuments oracles spre).documents
      = spre.allDocuments.map (fun d =>
          (labelOneDoc (spre.clusters.getLastD []) oracles
            (formatTaxonomyAsXml (spre.clusters.getLastD [])) d).1) := by
    show (labelLoop (spre.clusters.getLastD []) oracles
        (formatTaxonomyAsXml (spre.clusters.getLastD []))
        spre.allDocuments).1
      = spre.allDocuments.map (fun d =>
          (labelOneDoc (spre.clusters.getLastD []) oracles
            (formatTaxonomyAsXml (spre.clusters.getLastD [])) d).1)
    rw [labelLoop_fst]
  have hres : (buildResult (labelDocuments oracles spre)).labeledDocuments
      = (labelDocuments oracles spre).documents := rfl
  refine ⟨(labelDocuments_allDocuments oracles spre).trans hall0, ?_, ?_, ?_⟩
  · rw [hres, hdocs, List.length_map, hall0, normalizeDocs_length]
  · intro ld hld
    rw [hres, hdocs] at hld
    rcases List.mem_map.1 hld with ⟨d, _, hmap⟩
    rcases labelOneDoc_shape (spre.clusters.getLastD []) oracles
      (formatTaxonomyAsXml (spre.clusters.getLastD [])) d with ⟨nm, hshape⟩
    rw [← hmap, hshape]
    rfl
  · intro i d hd
    rw [labelDocuments_allDocuments] at hd
    rcases labelOneDoc_shape (spre.clusters.getLastD []) oracles
      (formatTaxonomyAsXml (spre.clusters.getLastD [])) d with ⟨nm, hshape⟩
    refine ⟨nm, ?_⟩
    rw [hres, hdocs, List.getElem?_map, hd]
    simp only [Option.map_some']
    rw [hshape]

theorem full_corpus_coverage_witness :
    cexDocsTwo ≠ [] ∧
    fullCoverageSpec {} cexOraclesGood (fun _ => 0) cexDocsTwo {} :=
  ⟨by decide, full_corpus_coverage {} cexOraclesGood (fun _ => 0)
    cexDocsTwo {} (by decide)⟩


lemma jsDigit_not_jsSpace {c : Char} (h : jsDigit c = true) :
    jsSpace c = false := by
  simp only [jsDigit, Bool.and_eq_true, decide_eq_true_eq] at h
  simp only [jsSpace, Bool.or_eq_false_iff, Bool.and_eq_false_iff,
    decide_eq_false_iff_not]
  omega

lemma dropWhile_jsSpace_of_digits {l : List Char}
    (h : l.all jsDigit = true) : l.dropWhile jsSpace = l := by
  cases l with
  | nil => rfl
  | cons c cs =>
    rw [List.dropWhile_cons_of_neg]
    simp only [List.all_cons, Bool.and_eq_true] at h
    simp [jsDigit_not_jsSpace h.1]

lemma jsTrim_of_all_digits {d : List Char} (h : d.all jsDigit = true) :
    jsTrim d = d := by
  unfold jsTrim
  rw [dropWhile_jsSpace_of_digits h,
    dropWhile_jsSpace_of_digits (by simpa using h), List.reverse_reverse]

lemma all_jsDigit_takeWhile (l : List Char) :
    (l.takeWhile jsDigit).all jsDigit = true := by
  rw [List.all_eq_true]
  intro c hc
  exact List.mem_takeWhile_imp hc

lemma sandwiched_takeWhile (p : Char → Bool) (l : List Char) :
    sandwiched (l.takeWhile p) l :=
  ⟨[], l.dropWhile p, by simp [List.takeWhile_append_dropWhile]⟩

lemma sandwiched_dropWhile (p : Char → Bool) (l : List Char) :
    sandwiched (l.dropWhile p) l :=
  ⟨l.takeWhile p, [], by simp [List.takeWhile_append_dropWhile]⟩

lemma matchTaggedDigits_some {o c s d : List Char}
    (h : matchTaggedDigits o c s = some d) :
    d ≠ [] ∧ d.all jsDigit = true ∧ sandwiched d s := by
  unfold matchTaggedDigits at h
  split at h
  · next =>
    by_cases he : (((s.drop o.length).dropWhile jsSpace).takeWhile
        jsDigit).isEmpty = true
    · rw [if_pos he] at h
      simp at h
    · rw [if_neg he] at h
      split at h
      · next =>
        have hd : d = ((s.drop o.length).dropWhile jsSpace).takeWhile
            jsDigit := by
          cases h; rfl
        subst hd
        refine ⟨by simpa using he, all_jsDigit_takeWhile _, ?_⟩
        exact sandwiched_trans
          (sandwiched_trans (sandwiched_takeWhile _ _)
            (sandwiched_dropWhile _ _))
          (sandwiched_drop s o.length)
      · simp at h
  · simp at h

lemma scanFor_some {β : Type} {m : List Char → Option β} {s : List Char}
    {b : β} (h : scanFor m s = some b) : ∃ k, m (s.drop k) = some b := by
  induction s with
  | nil => exact ⟨0, h⟩
  | cons ch cs ih =>
    simp only [scanFor] at h
    cases hm : m (ch :: cs) with
    | some b2 =>
      rw [hm] at h
      cases h
      exact ⟨0, hm⟩
    | none =>
      rw [hm] at h
      rcases ih h with ⟨k, hk⟩
      exact ⟨k + 1, hk⟩

lemma idCapture_some {block d : List Char} (h : idCapture block = some d) :
    d ≠ [] ∧ d.all jsDigit = true ∧ sandwiched d block := by
  rcases scanFor_some h with ⟨k, hk⟩
  rcases matchTaggedDigits_some hk with ⟨h1, h2, h3⟩
  exact ⟨h1, h2, sandwiched_trans h3 (sandwiched_drop block k)⟩

lemma extractBetween_some {o c s cap : List Char}
    (h : extractBetween o c s = some cap) : sandwiched cap s := by
  unfold extractBetween at h
  cases h1 : firstIdx o s with
  | none => rw [h1] at h; simp at h
  | some i =>
    simp only [h1] at h
    cases h2 : firstIdx c (s.drop (i + o.length)) with
    | none => simp only [h2] at h; exact absurd h (by simp)
    | some j =>
      simp only [h2] at h
      rw [Option.some_inj] at h
      subst h
      exact sandwiched_trans (sandwiched_take _ j)
        (sandwiched_drop s (i + o.length))

lemma splitFirstBetween_some {o c s cap rem : List Char}
    (h : splitFirstBetween o c s = some (cap, rem)) :
    sandwiched cap s ∧ sandwiched rem s := by
  unfold splitFirstBetween at h
  cases h1 : firstIdx o s with
  | none => rw [h1] at h; simp at h
  | some i =>
    simp only [h1] at h
    cases h2 : firstIdx c (s.drop (i + o.length)) with
    | none => simp only [h2] at h; exact absurd h (by simp)
    | some j =>
      simp only [h2] at h
      rw [Option.some_inj, Prod.mk.injEq] at h
      obtain ⟨h3, h4⟩ := h
      subst h3
      subst h4
      constructor
      · exact sandwiched_trans (sandwiched_take _ j)
          (sandwiched_drop s (i + o.length))
      · exact sandwiched_trans (sandwiched_drop _ (j + c.length))
          (sandwiched_drop s (i + o.length))

lemma extractClustersLoop_mem :
    ∀ (fuel : Nat) (s block : List Char),
      block ∈ extractClustersLoop fuel s → sandwiched block s := by
  intro fuel
  induction fuel with
  | zero => intro s block h; simp [extractClustersLoop] at h
  | succ fuel ih =>
    intro s block h
    simp only [extractClustersLoop] at h
    split at h
    · simp at h
    · next cap rem hsplit =>
      rcases List.mem_cons.1 h with rfl | h2
      · exact (splitFirstBetween_some hsplit).1
      · exact sandwiched_trans (ih rem block h2)
          (splitFirstBetween_some hsplit).2

lemma extractClusters_mem {s block : List Char}
    (h : block ∈ extractClusters s) : sandwiched block s :=
  extractClustersLoop_mem (s.length + 1) s block h

lemma clusterToCategory_some_id {block : List Char} {cat : TaxonomyCategory}
    (h : clusterToCategory block = some cat) :
    cat.id ≠ "" ∧ cat.id.data.all jsDigit = true ∧
      sandwiched cat.id.data block := by
  unfold clusterToCategory at h
  cases hid : idCapture block with
  | none => rw [hid] at h; simp at h
  | some d =>
    cases hnm : nameCapture block with
    | none => rw [hid, hnm] at h; simp at h
    | some nm =>
      rw [hid, hnm] at h
      rcases idCapture_some hid with ⟨h1, h2, h3⟩
      have hcat : cat.id = String.mk (jsTrim d) := by
        cases h; rfl
      rw [hcat, jsTrim_of_all_digits h2]
      refine ⟨?_, h2, h3⟩
      intro he
      apply h1
      have hdata := congrArg String.data he
      simpa using hdata

/-- C5 (amended): parsed categories carry the ids taken verbatim from the
generation text's id tags — each a non-empty decimal digit string occurring
contiguously in the raw input — rather than being reassigned sequentially;
the i-th id equals i + 1 only when the generation text numbers clusters
that way. -/
theorem parsed_ids_verbatim (s : String) : taxonomyIdSpec s := by
  intro cat hcat
  unfold parseTaxonomy at hcat
  cases hcb : extractBetween "<cluster_table>".data "</cluster_table>".data
      s.data with
  | none =>
    rw [hcb] at hcat
    simp only at hcat
    rcases List.mem_filterMap.1 hcat with ⟨block, hblock, hc2c⟩
    rcases clusterToCategory_some_id hc2c with ⟨h1, h2, h3⟩
    exact ⟨h1, h2, sandwiched_trans h3 (extractClusters_mem hblock)⟩
  | some content =>
    rw [hcb] at hcat
    simp only at hcat
    rcases List.mem_filterMap.1 hcat with ⟨block, hblock, hc2c⟩
    rcases clusterToCategory_some_id hc2c with ⟨h1, h2, h3⟩
    exact ⟨h1, h2, sandwiched_trans h3 (sandwiched_trans
      (extractClusters_mem hblock) (extractBetween_some hcb))⟩


/-- C5 counterexample: the parser keeps the raw id 7 for the first (0-based
index 0) category instead of reassigning the serial id 1. -/
theorem sequential_ids_cex :
    (parseTaxonomy cexRawIdText).map TaxonomyCategory.id = ["7"] ∧
    ¬ (parseTaxonomy cexRawIdText).map TaxonomyCategory.id = ["1"] := by
  constructor
  · decide
  · decide

theorem parsed_ids_verbatim_witness :
    (⟨"7", "A", ""⟩ : TaxonomyCategory) ∈ parseTaxonomy cexRawIdText ∧
    (("7" : String) ≠ "" ∧ ("7" : String).data.all jsDigit = true ∧
      sandwiched ("7" : String).data cexRawIdText.data) :=
  ⟨by decide, parsed_ids_verbatim cexRawIdText ⟨"7", "A", ""⟩ (by decide)⟩

/-- C10: parseTaxonomy includes a cluster element only when it has both a
numeric id tag and a name tag (every output id is a non-empty digit
string); a cluster without a description tag is kept with an empty
description; clusters lacking id or name are dropped; and without a
cluster_table wrapper the whole input is scanned for cluster elements. -/
theorem parse_taxonomy_inclusion (s : String) : parseTaxonomySpec s := by
  unfold parseTaxonomySpec
  refine ⟨?_, ?_, ?_, ?_⟩
  · intro cat hcat
    unfold parseTaxonomy at hcat
    cases hcb : extractBetween "<cluster_table>".data
        "</cluster_table>".data s.data with
    | none =>
      rw [hcb] at hcat
      simp only at hcat
      rcases List.mem_filterMap.1 hcat with ⟨block, _, hc2c⟩
      rcases clusterToCategory_some_id hc2c with ⟨h1, h2, _⟩
      exact ⟨h1, h2⟩
    | some content =>
      rw [hcb] at hcat
      simp only at hcat
      rcases List.mem_filterMap.1 hcat with ⟨block, _, hc2c⟩
      rcases clusterToCategory_some_id hc2c with ⟨h1, h2, _⟩
      exact ⟨h1, h2⟩
  · intro hno
    unfold parseTaxonomy
    rw [extractBetween_eq_none_left hno]
  · intro hno block hblock c hc2c
    unfold parseTaxonomy
    rw [extractBetween_eq_none_left hno]
    exact List.mem_filterMap.2 ⟨block, hblock, hc2c⟩
  · intro block
    constructor
    · intro hid hnm
      rcases Option.isSome_iff_exists.1 hid with ⟨d, hd⟩
      rcases Option.isSome_iff_exists.1 hnm with ⟨nm, hn⟩
      refine ⟨{ id := String.mk (jsTrim d), name := String.mk (jsTrim nm),
                description :=
                  (match descCapture block with
                   | some ds => String.mk (jsTrim ds)
                   | none => "") }, ?_, ?_⟩
      · simp only [clusterToCategory, hd, hn]
      · intro hdesc
        have hdn : descCapture block = none :=
          extractBetween_eq_none_left hdesc
        simp [hdn]
    · intro hor
      unfold clusterToCategory
      rcases hor with hid | hnm
      · rw [Option.isNone_iff_eq_none.1 hid]
      · rw [Option.isNone_iff_eq_none.1 hnm]
        cases idCapture block <;> rfl

theorem parse_taxonomy_inclusion_witness :
    parseTaxonomySpec cexRawIdText :=
  parse_taxonomy_inclusion cexRawIdText


set_option maxRecDepth 100000 in
/-- C1: with maxNumClusters = 1 and a generation result parsing to two
categories, the discovery step appends the full two-category snapshot and
the final taxonomy has two categories: the cap is never enforced in code,
only requested in the prompt. -/
theorem cap_not_enforced_eval :
    cexCfgCap.maxNumClusters = 1 ∧
    (parseTaxonomy cexTwoClusterText).length = 2 ∧
    (delveRun cexCfgCap cexOraclesCap (fun _ => 0) cexDocs {}).1.clusters
      = [parseTaxonomy cexTwoClusterText] ∧
    (buildResult (delveRun cexCfgCap cexOraclesCap (fun _ => 0)
      cexDocs {}).1).taxonomy.length = 2 := by
  refine ⟨rfl, ?_, ?_, ?_⟩
  · decide
  · decide
  · decide

set_option maxRecDepth 100000 in
/-- C2: a discovery generation result with zero parseable categories is not
fatal: the run appends the empty snapshot, continues through every stage to
labeling, and completes with an empty taxonomy and every document sent to
the Other fallback. -/
theorem discovery_empty_not_fatal_eval :
    parseTaxonomy cexNoClusterText = [] ∧
    (delveRun {} cexOraclesEmpty (fun _ => 0) cexDocs {}).1.clusters
      = [[]] ∧
    (delveRun {} cexOraclesEmpty (fun _ => 0) cexDocs {}).2.trace
      = ["load_data", "summarize", "get_minibatches", "generate_taxonomy",
         "update_taxonomy", "review_taxonomy", "label_documents"] ∧
    (buildResult (delveRun {} cexOraclesEmpty (fun _ => 0)
      cexDocs {}).1).taxonomy = [] ∧
    (buildResult (delveRun {} cexOraclesEmpty (fun _ => 0)
      cexDocs {}).1).labeledDocuments
      = [{ id := "d1", content := "hello", category := some "Other" }] := by
  refine ⟨?_, ?_, ?_, ?_, ?_⟩ <;> decide

end Delve
